import Mathlib

/-!
Verification of the auranova layout-and-reveal engine.

Shallow embedding of:
 - the phase animation controller of src/components/canvas/GalaxyStars.tsx
   (the phase-update effect, the skip-reveal effect, and the per-frame
   reveal-progress update) together with the uiStore actions it uses;
 - the evolution detector (detectEvolution);
 - the position cache (getCachedPositions / setCachedPositions);
 - the connection builder (createSimulationLinks of simulation/dataTransform.ts);
 - the deterministic orbital layout (buildGenreMap, assignClusters,
   calculateOrbitalPosition, resolveOverlaps, runSimulation).

Modelling conventions: JavaScript numbers are idealised as rationals where the
code only stores, compares and adds them (controller timings, cache payloads,
connection strengths) and as real numbers where the code does transcendental
geometry (the orbital layout).  JavaScript Maps are association lists in
insertion order, JavaScript Sets are deduplicated lists, and localStorage is a
key-value association list threaded explicitly.
-/

namespace Auranova

/-! ## JavaScript collection primitives shared by several components -/

/-- JS Map.prototype.set on an association list: overwrite the value in place
when the key is present, append otherwise. -/
def jsMapSet {α : Type} (m : List (String × α)) (k : String) (v : α) :
    List (String × α) :=
  if m.any (fun p => p.1 = k) then
    m.map (fun p => if p.1 = k then (k, v) else p)
  else
    m ++ [(k, v)]

/-- JS Map.prototype.get on an association list. -/
def jsMapGet {α : Type} (m : List (String × α)) (k : String) : Option α :=
  (m.find? (fun p => p.1 = k)).map (fun p => p.2)

/-- JS new Map(entries): entries folded by Map.set in order. -/
def jsMapFromEntries {α : Type} (l : List (String × α)) : List (String × α) :=
  l.foldl (fun m p => jsMapSet m p.1 p.2) []

/-! ## Phase animation controller (GalaxyStars.tsx lines 384-432, uiStore) -/

/-- GalaxyPhase of src/stores/uiStore.ts. -/
inductive GalaxyPhase : Type
  | skeleton
  | loading
  | revealing
  | active
deriving DecidableEq, Repr

/-- Numeric order of phases, as in the uPhase uniform mapping
(0=skeleton, 1=loading, 2=revealing, 3=active). -/
def GalaxyPhase.order : GalaxyPhase → ℕ
  | .skeleton => 0
  | .loading => 1
  | .revealing => 2
  | .active => 3

/-- REVEAL_DURATION of GalaxyStars.tsx. -/
def REVEAL_DURATION : ℚ := 2.5

/-- QUICK_REVEAL_DURATION of GalaxyStars.tsx. -/
def QUICK_REVEAL_DURATION : ℚ := 0.4

/-- The controller state: the uiStore fields driven by GalaxyStars
(galaxyPhase, revealProgress, skipReveal), the component refs
(revealStartTimeRef, revealDurationRef, isReturnVisitor, artistDataRef
modelled by the number of prepared artists), and the persisted
auranova-has-seen-reveal localStorage flag. -/
structure ControllerState : Type where
  phase : GalaxyPhase
  revealProgress : ℚ
  skipReveal : Bool
  revealStartTime : Option ℚ
  revealDuration : ℚ
  isReturnVisitor : Bool
  hasSeenRevealStored : Bool
  artistData : Option ℕ
deriving DecidableEq, Repr

/-- Initial state: uiStore initial values (phase skeleton, progress 0,
skipReveal false) and the component's initial refs. -/
def initControllerState : ControllerState :=
  { phase := .skeleton
    revealProgress := 0
    skipReveal := false
    revealStartTime := none
    revealDuration := REVEAL_DURATION
    isReturnVisitor := false
    hasSeenRevealStored := false
    artistData := none }

/-- External inputs read by one evaluation of the phase-update effect:
isAuthenticated (auth store), isLoadingMusic (music store),
artists.length (galaxyData), and the reduced-motion media query. -/
structure PhaseInput : Type where
  isAuthenticated : Bool
  isLoadingMusic : Bool
  artistCount : ℕ
  prefersReducedMotion : Bool
deriving DecidableEq, Repr

/-- One evaluation of the phase-update effect (GalaxyStars.tsx lines 384-418). -/
def phaseStep (s : ControllerState) (i : PhaseInput) : ControllerState :=
  if i.isAuthenticated = false then
    { s with phase := .skeleton, revealProgress := 0, revealStartTime := none }
  else if i.isLoadingMusic then
    { s with phase := .loading }
  else if 0 < i.artistCount then
    if s.phase = .loading ∨ s.phase = .skeleton then
      if i.prefersReducedMotion then
        { s with phase := .active, revealProgress := 1,
                 artistData := some i.artistCount }
      else
        { s with revealDuration :=
                   if s.isReturnVisitor then QUICK_REVEAL_DURATION
                   else REVEAL_DURATION,
                 phase := .revealing,
                 revealStartTime := none,
                 artistData := some i.artistCount }
    else if s.phase = .revealing ∧ 1 ≤ s.revealProgress then
      { s with phase := .active, hasSeenRevealStored := true }
    else s
  else s

/-- One evaluation of the skip-reveal effect (GalaxyStars.tsx lines 421-432). -/
def skipStep (s : ControllerState) : ControllerState :=
  if s.skipReveal = true ∧ s.phase = .revealing then
    { s with revealProgress := 1, phase := .active, hasSeenRevealStored := true }
  else s

/-- uiStore.triggerSkipReveal (sets skipReveal) followed by the re-run of the
skip-reveal effect it causes. -/
def triggerSkip (s : ControllerState) : ControllerState :=
  skipStep { s with skipReveal := true }

/-- One render cycle of the controller: the phase-update effect followed by the
skip-reveal effect, in component declaration order. -/
def controllerStep (s : ControllerState) (i : PhaseInput) : ControllerState :=
  skipStep (phaseStep s i)

/-- Reveal-progress update of the useFrame body (GalaxyStars.tsx lines
622-630): only while revealing, progress = min(elapsed/duration, 1) from the
clock value supplied each frame. -/
def frameStep (s : ControllerState) (now : ℚ) : ControllerState :=
  if s.phase = .revealing then
    let start := s.revealStartTime.getD now
    let progress := min ((now - start) / s.revealDuration) 1
    { s with revealStartTime := some start, revealProgress := progress }
  else s

/-! ## Evolution detector (detectEvolution) -/

/-- EvolutionStatus of src/types/domain.ts. -/
inductive EvolutionStatus : Type
  | stable
  | new
  | fading
  | rising
  | falling
deriving DecidableEq, Repr

/-- ArtistConnection of src/types/domain.ts. -/
structure ArtistConnection : Type where
  source : String
  target : String
  strength : ℚ
deriving DecidableEq, Repr

/-- GalaxyArtist, reduced to the fields detectEvolution reads or writes plus a
representative carried-through field (name); the remaining visual fields are
copied verbatim by the object spread and behave exactly like name. -/
structure GalaxyArtist : Type where
  id : String
  name : String
  genres : List String
  popularity : ℚ
  evolutionStatus : Option EvolutionStatus
  rankChange : Option ℤ
deriving DecidableEq, Repr

/-- GalaxyData, reduced to the artist list detectEvolution rewrites plus a
representative carried-through field (connections). -/
structure GalaxyData : Type where
  artists : List GalaxyArtist
  connections : List ArtistConnection
deriving DecidableEq, Repr

/-- The previousArtistMap of detectEvolution: artist id to index, built by
Map.set over previousData.artists (the stored artist object is never read). -/
def buildPreviousArtistMap (artists : List GalaxyArtist) : List (String × ℕ) :=
  artists.enum.foldl (fun m p => jsMapSet m p.2.id p.1) []

/-- detectEvolution of the evolution detector module: tag each artist of the
new data set by comparing its index against its index in the previous set. -/
def detectEvolution (newData : GalaxyData) (previousData : Option GalaxyData) :
    GalaxyData :=
  match previousData with
  | none => newData
  | some previousData =>
    let previousArtistMap := buildPreviousArtistMap previousData.artists
    { newData with
      artists := newData.artists.enum.map (fun p =>
        let newIndex := p.1
        let artist := p.2
        match jsMapGet previousArtistMap artist.id with
        | none =>
            { artist with evolutionStatus := some .new, rankChange := some 0 }
        | some oldIndex =>
            let rankChange : ℤ := (oldIndex : ℤ) - (newIndex : ℤ)
            let status : EvolutionStatus :=
              if 5 ≤ rankChange then .rising
              else if rankChange ≤ -5 then .falling
              else .stable
            { artist with evolutionStatus := some status,
                          rankChange := some rankChange }) }

/-- Evolution tag as the specification words it: new when the id is absent
from the previous list, otherwise rising / falling / stable by the rank delta
previousIndex - newIndex against the threshold 5. -/
def specEvolutionTag (prevIds : List String) (id : String) (newIndex : ℕ) :
    EvolutionStatus :=
  if id ∈ prevIds then
    let rankDelta : ℤ := (prevIds.indexOf id : ℤ) - (newIndex : ℤ)
    if 5 ≤ rankDelta then .rising
    else if rankDelta ≤ -5 then .falling
    else .stable
  else .new

/-- Rank delta as the specification words it (0 for newly appearing ids,
matching the code's initial value). -/
def specRankDelta (prevIds : List String) (id : String) (newIndex : ℕ) : ℤ :=
  if id ∈ prevIds then (prevIds.indexOf id : ℤ) - (newIndex : ℤ) else 0

/-! ## Position cache (getCacheKey, hashCode, isCacheValid,
getCachedPositions, setCachedPositions) -/

/-- TimeRange of src/types/domain.ts. -/
inductive TimeRange : Type
  | short_term
  | medium_term
  | long_term
deriving DecidableEq, Repr

/-- String interpolation of a TimeRange value. -/
def TimeRange.key : TimeRange → String
  | .short_term => "short_term"
  | .medium_term => "medium_term"
  | .long_term => "long_term"

/-- CACHE_KEY_PREFIX of the position cache. -/
def CACHE_KEY_PREFIX : String := "auranova:positions:"

/-- CACHE_VERSION of the position cache. -/
def CACHE_VERSION : ℕ := 1

/-- Signed 32-bit wrap-around, the effect of the JS bitwise conversion in
hash & hash. -/
def toInt32 (n : ℤ) : ℤ := (n + 2 ^ 31) % 2 ^ 32 - 2 ^ 31

/-- hashCode of the position cache: the 31*h+c rolling hash written as
(hash << 5) - hash + char with 32-bit wrap-around, then Math.abs. -/
def hashCode (str : String) : ℕ :=
  (str.data.foldl
    (fun hash char =>
      toInt32 (toInt32 (hash * 32) - hash + (char.toNat : ℤ)))
    0).natAbs

/-- Insertion step of the default JS string sort (lexicographic ascending). -/
def insertSortedString (x : String) : List String → List String
  | [] => [x]
  | y :: ys => if x ≤ y then x :: y :: ys else y :: insertSortedString x ys

/-- A copy of the id list sorted lexicographically ([...artistIds].sort()). -/
def sortStrings (l : List String) : List String :=
  l.foldr insertSortedString []

/-- getCacheKey of the position cache: prefix, time range, id count and the
hash of the comma-joined sorted ids truncated to 100 characters. -/
def getCacheKey (timeRange : TimeRange) (artistIds : List String) : String :=
  let sortedIds := sortStrings artistIds
  let idsHash := (String.intercalate "," sortedIds).take 100
  CACHE_KEY_PREFIX ++ timeRange.key ++ ":" ++ toString sortedIds.length ++ ":"
    ++ toString (hashCode idsHash)

/-- SerializedCacheEntry: what setCachedPositions writes to localStorage.
The positions payload type is a parameter: the cache never inspects the
position tuples, only stores and returns them. -/
structure SerializedCacheEntry (α : Type) : Type where
  version : ℕ
  timestamp : ℚ
  artistIds : List String
  positions : List (String × α)
deriving DecidableEq, Repr

/-- The localStorage slice used by the cache: keys to parsed entries.
JSON round-trips losslessly on this shape, so serialization is the identity
in the model; the corrupt-JSON catch branch never fires. -/
abbrev Storage (α : Type) : Type := List (String × SerializedCacheEntry α)

/-- localStorage.getItem. -/
def storageGet {α : Type} (σ : Storage α) (k : String) :
    Option (SerializedCacheEntry α) :=
  (σ.find? (fun p => p.1 = k)).map (fun p => p.2)

/-- localStorage.setItem. -/
def storageSet {α : Type} (σ : Storage α) (k : String)
    (v : SerializedCacheEntry α) : Storage α :=
  if σ.any (fun p => p.1 = k) then
    σ.map (fun p => if p.1 = k then (k, v) else p)
  else
    σ ++ [(k, v)]

/-- localStorage.removeItem. -/
def storageRemove {α : Type} (σ : Storage α) (k : String) : Storage α :=
  σ.filter (fun p => ¬ p.1 = k)

/-- isCacheValid: version check, then exact set equality of the stored and
requested id sets (JS Set modelled by dedup: same size, then membership of
every requested id). -/
def isCacheValid {α : Type} (cached : SerializedCacheEntry α)
    (currentArtistIds : List String) : Bool :=
  if cached.version ≠ CACHE_VERSION then false
  else
    let cachedSet := cached.artistIds.dedup
    let currentSet := currentArtistIds.dedup
    if cachedSet.length ≠ currentSet.length then false
    else currentSet.all (fun id => id ∈ cachedSet)

/-- getCachedPositions: look the key up, rebuild the Map from the serialized
entries, validate, and on mismatch remove the stale entry and return null.
Returns the result together with the possibly-updated storage. -/
def getCachedPositions {α : Type} (timeRange : TimeRange)
    (artistIds : List String) (σ : Storage α) :
    Option (List (String × α)) × Storage α :=
  let key := getCacheKey timeRange artistIds
  match storageGet σ key with
  | none => (none, σ)
  | some serialized =>
    let positions := jsMapFromEntries serialized.positions
    if isCacheValid serialized artistIds then (some positions, σ)
    else (none, storageRemove σ key)

/-- setCachedPositions: store the entry (version, Date.now() supplied as the
explicit now argument, the id list, the Map entries) under the derived key. -/
def setCachedPositions {α : Type} (timeRange : TimeRange)
    (artistIds : List String) (positions : List (String × α)) (now : ℚ)
    (σ : Storage α) : Storage α :=
  let key := getCacheKey timeRange artistIds
  storageSet σ key
    { version := CACHE_VERSION
      timestamp := now
      artistIds := artistIds
      positions := positions }

/-! ## Connection builder (createSimulationLinks of dataTransform.ts) -/

/-- SpotifyArtist, reduced to the fields createSimulationLinks reads. -/
structure SpotifyArtist : Type where
  id : String
  name : String
  genres : List String
  popularity : ℚ
deriving DecidableEq, Repr

instance : Inhabited SpotifyArtist := ⟨⟨"", "", [], 0⟩⟩

/-- SimulationLink as produced by createSimulationLinks (source and target are
always the id strings there). -/
structure SimulationLink : Type where
  source : String
  target : String
  strength : ℚ
deriving DecidableEq, Repr

/-- Index pairs (i, j) with i < j < n, in the traversal order of the nested
for loops. -/
def pairIndices (n : ℕ) : List (ℕ × ℕ) :=
  (List.range n).flatMap (fun i =>
    ((List.range n).filter (fun j => i < j)).map (fun j => (i, j)))

/-- Loop body of createSimulationLinks for one artist pair: count the shared
genres, compute the overlap ratio against the genre-set union, and emit a
connection when the ratio exceeds 0.15. -/
def emitConnection (artist1 artist2 : SpotifyArtist) : Option ArtistConnection :=
  let sharedGenres := artist1.genres.filter (fun g => g ∈ artist2.genres)
  if 0 < sharedGenres.length then
    let totalGenres := (artist1.genres ++ artist2.genres).dedup.length
    let strength : ℚ := (sharedGenres.length : ℚ) / (totalGenres : ℚ)
    if 0.15 < strength then
      some { source := artist1.id, target := artist2.id, strength := strength }
    else none
  else none

/-- createSimulationLinks: every unordered pair in loop order, filtered by
emitConnection; links and connections carry the same data. -/
def createSimulationLinks (artists : List SpotifyArtist) :
    List SimulationLink × List ArtistConnection :=
  let connections := (pairIndices artists.length).filterMap (fun p =>
    emitConnection (artists.getD p.1 default) (artists.getD p.2 default))
  let links := connections.map (fun c =>
    { source := c.source, target := c.target, strength := c.strength })
  (links, connections)

/-- Connection emission as the claim words it, with set semantics: shared
genres and the overlap ratio computed on the genre sets (Finsets) of the two
artists. -/
def specEmitConnection (artist1 artist2 : SpotifyArtist) :
    Option ArtistConnection :=
  let shared := artist1.genres.toFinset ∩ artist2.genres.toFinset
  let union := artist1.genres.toFinset ∪ artist2.genres.toFinset
  let ratio : ℚ := (shared.card : ℚ) / (union.card : ℚ)
  if 0 < shared.card ∧ 0.15 < ratio then
    some { source := artist1.id, target := artist2.id, strength := ratio }
  else none

/-! ## Orbital layout engine (forceSimulation module)

Floating-point numbers are idealised as real numbers; Math.sqrt, Math.acos,
Math.sin, Math.cos and Math.PI are the Mathlib functions on ℝ. -/

/-- SimulationNode of the orbital simulation.  The optional TS fields
x, y, z, rank are Options; cluster starts at 0 (createSimulationNodes). -/
structure SimulationNode : Type where
  id : String
  genres : List String
  popularity : ℝ
  cluster : ℕ
  x : Option ℝ
  y : Option ℝ
  z : Option ℝ
  rank : Option ℕ

instance : Inhabited SimulationNode := ⟨⟨"", [], 0, 0, none, none, none, none⟩⟩

/-- The fields of a node that runSimulation only reads and never writes;
every other field (cluster, rank, x, y, z) is overwritten by the run. -/
def simCore (n : SimulationNode) : String × List String × ℝ :=
  (n.id, n.genres, n.popularity)

/-- SimulationConfig (the deprecated optional fields repulsion,
collisionMultiplier, linkDistance, iterations are unused by the code and
omitted; the partial-config merge with DEFAULT_CONFIG is modelled by callers
passing complete configs). -/
structure SimulationConfig : Type where
  radius : ℝ
  innerRadius : ℝ
  outerRadius : ℝ
  numOrbits : ℕ
  verticalSpread : ℝ
  use3D : Bool

/-- DEFAULT_CONFIG of the orbital simulation. -/
noncomputable def DEFAULT_CONFIG : SimulationConfig :=
  { radius := 35
    innerRadius := 8
    outerRadius := 35
    numOrbits := 5
    verticalSpread := 6
    use3D := true }

/-- Genre occurrence counting of buildGenreMap: a JS Map in first-insertion
order, each genre of each node bumping its count. -/
def countGenres (genres : List String) : List (String × ℕ) :=
  genres.foldl (fun m g => jsMapSet m g ((jsMapGet m g).getD 0 + 1)) []

/-- Insertion step of the stable sort by descending count, the comparator
(a, b) => b[1] - a[1] of buildGenreMap: an element is placed after every
earlier element of greater-or-equal count. -/
def insertByCount (x : String × ℕ) : List (String × ℕ) → List (String × ℕ)
  | [] => [x]
  | y :: ys => if y.2 < x.2 then x :: y :: ys else y :: insertByCount x ys

/-- Stable sort by descending count (JS Array.prototype.sort is stable). -/
def sortByCountDesc (l : List (String × ℕ)) : List (String × ℕ) :=
  l.foldl (fun acc x => insertByCount x acc) []

/-- buildGenreMap: count genre occurrences, sort descending by count, and map
each genre to its index in that order. -/
def buildGenreMap (nodes : List SimulationNode) : List (String × ℕ) :=
  let genreCounts := countGenres (nodes.flatMap (fun n => n.genres))
  let sortedGenres := (sortByCountDesc genreCounts).map (fun p => p.1)
  sortedGenres.enum.map (fun p => (p.2, p.1))

/-- Loop body of assignClusters for one node: the minimum genre index among
the node's genres (Infinity modelled by none), 0 for no genres or all-missing
genres. -/
def clusterOfGenres (genreMap : List (String × ℕ)) (genres : List String) : ℕ :=
  if genres = [] then 0
  else
    (genres.foldl (fun best g =>
      match jsMapGet genreMap g with
      | none => best
      | some clusterIndex =>
        match best with
        | none => some clusterIndex
        | some b => if clusterIndex < b then some clusterIndex else best)
      none).getD 0

/-- assignClusters: write each node's cluster from the genre map. -/
def assignClusters (nodes : List SimulationNode)
    (genreMap : List (String × ℕ)) : List SimulationNode :=
  nodes.map (fun node =>
    { node with cluster := clusterOfGenres genreMap node.genres })

/-- calculateOrbitalPosition: orbit radius from rank, golden-spiral spherical
angles, genre-cluster angular offset, vertical compression 0.6 on y. -/
noncomputable def calculateOrbitalPosition (node : SimulationNode) (rank : ℕ)
    (totalArtists : ℕ) (config : SimulationConfig)
    (genreMap : List (String × ℕ)) : ℝ × ℝ × ℝ :=
  let totalGenres : ℕ := if genreMap.length = 0 then 1 else genreMap.length
  let importance : ℝ := 1 - (rank : ℝ) / max ((totalArtists : ℝ) - 1) 1
  let orbitRadius : ℝ :=
    config.innerRadius + (1 - importance) * (config.outerRadius - config.innerRadius)
  let goldenRatio : ℝ := (1 + Real.sqrt 5) / 2
  let goldenAngle : ℝ := 2 * Real.pi / (goldenRatio * goldenRatio)
  let phi : ℝ := (rank : ℝ) * goldenAngle
  let t : ℝ := (rank : ℝ) / max ((totalArtists : ℝ) - 1) 1
  let theta : ℝ := Real.arccos (1 - 2 * t)
  let genreAngleOffset : ℝ :=
    ((node.cluster : ℝ) / (totalGenres : ℝ)) * Real.pi * 0.4
  let adjustedPhi : ℝ := phi + genreAngleOffset
  let x := orbitRadius * Real.sin theta * Real.cos adjustedPhi
  let y := if config.use3D then orbitRadius * Real.cos theta * 0.6 else 0
  let z := orbitRadius * Real.sin theta * Real.sin adjustedPhi
  (x, y, z)

/-- getNodeSize: constant 0.6 (average of the three visual planet sizes). -/
noncomputable def getNodeSize (_node : SimulationNode) : ℝ := 0.6

/-- The minSpacing multiplier of resolveOverlaps. -/
noncomputable def minSpacing : ℝ := 1.2

/-- Euclidean distance between the positions of two nodes exactly as the
overlap loop computes it (missing coordinates read as 0). -/
noncomputable def nodeDist (nodeA nodeB : SimulationNode) : ℝ :=
  let dx := nodeB.x.getD 0 - nodeA.x.getD 0
  let dy := nodeB.y.getD 0 - nodeA.y.getD 0
  let dz := nodeB.z.getD 0 - nodeA.z.getD 0
  Real.sqrt (dx * dx + dy * dy + dz * dz)

/-- Inner loop body of resolveOverlaps for one index pair: if the pair is
closer than (sizeA+sizeB)*minSpacing but farther than the 0.001 degeneracy
guard, push both nodes apart symmetrically and record that an overlap was
found. -/
noncomputable def overlapStep (s : List SimulationNode × Bool) (ij : ℕ × ℕ) :
    List SimulationNode × Bool :=
  let nodes := s.1
  let nodeA := nodes.getD ij.1 default
  let nodeB := nodes.getD ij.2 default
  let dx := nodeB.x.getD 0 - nodeA.x.getD 0
  let dy := nodeB.y.getD 0 - nodeA.y.getD 0
  let dz := nodeB.z.getD 0 - nodeA.z.getD 0
  let dist := Real.sqrt (dx * dx + dy * dy + dz * dz)
  let minDist := (getNodeSize nodeA + getNodeSize nodeB) * minSpacing
  if dist < minDist ∧ 0.001 < dist then
    let overlap := minDist - dist
    let pushAmount := overlap / 2
    let nx := dx / dist
    let ny := dy / dist
    let nz := dz / dist
    let nodes1 := nodes.set ij.1
      { nodeA with x := some (nodeA.x.getD 0 - nx * pushAmount)
                 , y := some (nodeA.y.getD 0 - ny * pushAmount)
                 , z := some (nodeA.z.getD 0 - nz * pushAmount) }
    let nodes2 := nodes1.set ij.2
      { nodeB with x := some (nodeB.x.getD 0 + nx * pushAmount)
                 , y := some (nodeB.y.getD 0 + ny * pushAmount)
                 , z := some (nodeB.z.getD 0 + nz * pushAmount) }
    (nodes2, true)
  else s

/-- One full pass of the nested pair loop of resolveOverlaps, threading the
in-place updates and the hasOverlap flag. -/
noncomputable def overlapPass (nodes : List SimulationNode) :
    List SimulationNode × Bool :=
  (pairIndices nodes.length).foldl overlapStep (nodes, false)

/-- resolveOverlaps: up to the given number of passes, stopping early after a
pass that found no overlap. -/
noncomputable def resolveOverlaps :
    List SimulationNode → ℕ → List SimulationNode
  | nodes, 0 => nodes
  | nodes, k + 1 =>
    let p := overlapPass nodes
    if p.2 then resolveOverlaps p.1 k else p.1

/-- Insertion step of the stable sort by descending popularity, the comparator
(a, b) => b.popularity - a.popularity of runSimulation. -/
noncomputable def insertByPopularity (x : ℕ × ℝ) :
    List (ℕ × ℝ) → List (ℕ × ℝ)
  | [] => [x]
  | y :: ys => if y.2 < x.2 then x :: y :: ys else y :: insertByPopularity x ys

/-- The permutation produced by the stable sort of [...nodes] by descending
popularity: position k of the result is the original index of the rank-k
node. -/
noncomputable def sortedOrder (pops : List ℝ) : List ℕ :=
  (pops.enum.foldl (fun acc x => insertByPopularity x acc) []).map
    (fun p => p.1)

/-- Rank assignment and orbital placement of one node, the body of the two
sortedNodes.forEach loops of runSimulation. -/
noncomputable def placeNode (genreMap : List (String × ℕ)) (totalArtists : ℕ)
    (config : SimulationConfig) (rank : ℕ) (node : SimulationNode) :
    SimulationNode :=
  let n := { node with rank := some rank }
  let pos := calculateOrbitalPosition n rank totalArtists config genreMap
  { n with x := some pos.1, y := some pos.2.1, z := some pos.2.2 }

/-- runSimulation: build the genre map, assign clusters, sort by popularity
(a copy is sorted, but the node objects are shared), assign ranks, place every
node on its orbit, resolve overlaps with 15 iterations, and return the nodes
in their original list order with all mutated fields updated (position k of
the stable sort permutation perm holds the original index of the rank-k
node). -/
noncomputable def runSimulation (nodes : List SimulationNode)
    (_links : List SimulationLink) (config : SimulationConfig) :
    List SimulationNode :=
  let genreMap := buildGenreMap nodes
  let clustered := assignClusters nodes genreMap
  let perm := sortedOrder (clustered.map (fun n => n.popularity))
  let totalArtists := nodes.length
  let placed := perm.enum.map (fun p =>
    placeNode genreMap totalArtists config p.1 (clustered.getD p.2 default))
  let resolved := resolveOverlaps placed 15
  (List.range totalArtists).map (fun i => resolved.getD (perm.indexOf i) default)

/-- Distance of a node's position from the origin (claim-side notion used by
the single-entity placement property). -/
noncomputable def distFromOrigin (n : SimulationNode) : ℝ :=
  Real.sqrt (n.x.getD 0 * n.x.getD 0 + n.y.getD 0 * n.y.getD 0
    + n.z.getD 0 * n.z.getD 0)

/-! ## Test fixtures referenced by closed theorems -/

/-- State after one evaluation with authenticated = true and loading data. -/
def loadingState : ControllerState :=
  controllerStep initControllerState ⟨true, true, 0, false⟩

/-- A state in the revealing phase. -/
def revealingState : ControllerState :=
  { initControllerState with phase := .revealing }

/-- State after data becomes ready under reduced motion: phase active. -/
def c5State2 : ControllerState :=
  controllerStep loadingState ⟨true, false, 3, true⟩

/-- State after a subsequent authenticated re-fetch begins: phase drops back
to loading. -/
def c5State3 : ControllerState :=
  controllerStep c5State2 ⟨true, true, 3, true⟩

/-- Artist fixture with a given id. -/
def mkGA (id : String) : GalaxyArtist := ⟨id, "", [], 0, none, none⟩

/-- Previous result fixture with ids A, B, C. -/
def prevGD : GalaxyData := ⟨[mkGA "A", mkGA "B", mkGA "C"], []⟩

/-- New result fixture with ids C, A, B, D. -/
def newGD : GalaxyData := ⟨[mkGA "C", mkGA "A", mkGA "B", mkGA "D"], []⟩

/-! ## Theorems: phase controller -/

/-- Every phase has order at most 3. -/
theorem GalaxyPhase.order_le_three (p : GalaxyPhase) : p.order ≤ 3 := by
  cases p <;> simp [GalaxyPhase.order]

/-- The skip-reveal effect never moves the phase backward. -/
theorem skipStep_order_mono (s : ControllerState) :
    s.phase.order ≤ (skipStep s).phase.order := by
  unfold skipStep
  split_ifs with h
  · rw [h.2]
    exact GalaxyPhase.order_le_three _
  · exact le_refl _

/-- C5 (corrected), amended claim: a controller evaluation never moves the
phase backward in the order skeleton, loading, revealing, active, except that
any state may drop to skeleton when isAuthenticated is false, and any state
may drop to loading when authenticated data is loading again (re-fetch). -/
theorem C5_phase_monotone_except_reentries (s : ControllerState)
    (i : PhaseInput) :
    s.phase.order ≤ (controllerStep s i).phase.order
    ∨ ((controllerStep s i).phase = .skeleton ∧ i.isAuthenticated = false)
    ∨ ((controllerStep s i).phase = .loading ∧ i.isAuthenticated = true
        ∧ i.isLoadingMusic = true) := by
  have hskipne : ∀ t : ControllerState, t.phase ≠ .revealing →
      (skipStep t).phase = t.phase := by
    intro t h
    unfold skipStep
    split_ifs with hc
    · exact absurd hc.2 h
    · rfl
  have key : s.phase.order ≤ (phaseStep s i).phase.order
      ∨ ((phaseStep s i).phase = .skeleton ∧ i.isAuthenticated = false)
      ∨ ((phaseStep s i).phase = .loading ∧ i.isAuthenticated = true
          ∧ i.isLoadingMusic = true) := by
    have hauth : i.isAuthenticated = false ∨ i.isAuthenticated = true := by
      cases i.isAuthenticated
      · exact Or.inl rfl
      · exact Or.inr rfl
    unfold phaseStep
    split_ifs with h1 h2 h3 h4 h5 h6 h7
    · exact Or.inr (Or.inl ⟨rfl, h1⟩)
    · refine Or.inr (Or.inr ⟨rfl, ?_, h2⟩)
      rcases hauth with h | h
      · exact absurd h h1
      · exact h
    · exact Or.inl (GalaxyPhase.order_le_three _)
    · refine Or.inl ?_
      show s.phase.order ≤ GalaxyPhase.order .revealing
      rcases h4 with h | h <;> rw [h] <;> simp [GalaxyPhase.order]
    · refine Or.inl ?_
      show s.phase.order ≤ GalaxyPhase.order .revealing
      rcases h4 with h | h <;> rw [h] <;> simp [GalaxyPhase.order]
    · exact Or.inl (GalaxyPhase.order_le_three _)
    · exact Or.inl (le_refl _)
    · exact Or.inl (le_refl _)
  show s.phase.order ≤ (skipStep (phaseStep s i)).phase.order ∨ _
  rcases key with h | ⟨h, ha⟩ | ⟨h, ha, hl⟩
  · exact Or.inl (le_trans h (skipStep_order_mono _))
  · refine Or.inr (Or.inl ⟨?_, ha⟩)
    show (skipStep (phaseStep s i)).phase = _
    rw [hskipne _ (by rw [h]; simp), h]
  · refine Or.inr (Or.inr ⟨?_, ha, hl⟩)
    show (skipStep (phaseStep s i)).phase = _
    rw [hskipne _ (by rw [h]; simp), h]

/-- C5 counterexample: a reachable authenticated trace (log in and load, data
ready with reduced motion, then a re-fetch of a new time range) moves the
phase backward from active to loading while isAuthenticated stays true,
contradicting the claim that only the skeleton re-entry on logout moves the
phase backward. -/
theorem C5_counterexample :
    c5State2.phase = .active
    ∧ c5State3 = controllerStep c5State2 ⟨true, true, 3, true⟩
    ∧ c5State3.phase = .loading
    ∧ c5State3.phase.order < c5State2.phase.order :=
  ⟨rfl, rfl, rfl, by decide⟩

/-- C6 (confirmed): with reduced motion preferred and a non-empty ready
dataset, an evaluation from skeleton or loading lands directly on active with
reveal progress 1; the result is not in revealing, and a subsequent animation
frame changes nothing (no interpolation frames). -/
theorem C6_reduced_motion_bypass (s : ControllerState) (i : PhaseInput)
    (hphase : s.phase = .skeleton ∨ s.phase = .loading)
    (hauth : i.isAuthenticated = true) (hload : i.isLoadingMusic = false)
    (hcount : 0 < i.artistCount) (hrm : i.prefersReducedMotion = true) :
    (controllerStep s i).phase = .active
    ∧ (controllerStep s i).revealProgress = 1
    ∧ (controllerStep s i).phase ≠ .revealing
    ∧ ∀ t : ℚ, frameStep (controllerStep s i) t = controllerStep s i := by
  have hcond : (phaseStep s i).phase = .active
      ∧ (phaseStep s i).revealProgress = 1 := by
    unfold phaseStep
    rw [hauth, hload, hrm]
    simp only [Bool.true_eq_false, if_false, Bool.false_eq_true, if_true]
    rw [if_pos hcount, if_pos hphase.symm]
    exact ⟨rfl, rfl⟩
  have hskip : controllerStep s i = phaseStep s i := by
    unfold controllerStep skipStep
    rw [if_neg]
    intro hcontra
    rw [hcond.1] at hcontra
    exact absurd hcontra.2 (by simp)
  refine ⟨hskip ▸ hcond.1, hskip ▸ hcond.2, ?_, ?_⟩
  · rw [hskip, hcond.1]
    simp
  · intro t
    unfold frameStep
    rw [if_neg]
    rw [hskip, hcond.1]
    simp

/-- C6 witness: evaluating the controller from the initial skeleton state with
authenticated ready data and reduced motion gives phase active, progress 1. -/
theorem C6_witness :
    (controllerStep initControllerState ⟨true, false, 5, true⟩).phase = .active
    ∧ (controllerStep initControllerState ⟨true, false, 5, true⟩).revealProgress = 1
    ∧ (controllerStep initControllerState ⟨true, false, 5, true⟩).phase ≠ .revealing
    ∧ ∀ t : ℚ, frameStep (controllerStep initControllerState ⟨true, false, 5, true⟩) t
        = controllerStep initControllerState ⟨true, false, 5, true⟩ :=
  C6_reduced_motion_bypass initControllerState ⟨true, false, 5, true⟩
    (Or.inl rfl) rfl rfl (by decide) rfl

/-- C7 (code_bug): when data becomes ready with an empty artist list while the
controller is loading, no branch of the phase-update effect fires: the state
is a fixed point of the evaluation and the phase stays loading, never reaching
active, contradicting the claim's required immediate transition to active. -/
theorem C7_empty_ready_stuck :
    loadingState.phase = .loading
    ∧ controllerStep loadingState ⟨true, false, 0, false⟩ = loadingState
    ∧ (controllerStep loadingState ⟨true, false, 0, false⟩).phase ≠ .active :=
  ⟨rfl, rfl, by decide⟩

/-- C8 (confirmed): from revealing, triggering skip twice equals triggering it
once (phase active, progress 1, return-visitor flag persisted); a trigger
outside revealing changes nothing beyond latching the skipReveal input flag
itself. -/
theorem C8_skip_idempotent (s : ControllerState) :
    (s.phase = .revealing →
      triggerSkip (triggerSkip s) = triggerSkip s
      ∧ (triggerSkip s).phase = .active
      ∧ (triggerSkip s).revealProgress = 1
      ∧ (triggerSkip s).hasSeenRevealStored = true)
    ∧ (s.phase ≠ .revealing →
      triggerSkip s = { s with skipReveal := true }) := by
  constructor
  · intro h
    have h1 : triggerSkip s =
        { s with skipReveal := true, revealProgress := 1, phase := .active,
                 hasSeenRevealStored := true } := by
      unfold triggerSkip skipStep
      rw [if_pos]
      exact ⟨rfl, h⟩
    have h2 : triggerSkip (triggerSkip s) = triggerSkip s := by
      rw [h1]
      unfold triggerSkip skipStep
      rw [if_neg]
      intro hcontra
      exact absurd hcontra.2 (by simp)
    exact ⟨h2, by rw [h1], by rw [h1], by rw [h1]⟩
  · intro h
    unfold triggerSkip skipStep
    rw [if_neg]
    intro hcontra
    exact absurd hcontra.2 h

/-- C8 witness: the skip trigger evaluated on a concrete revealing state and
on the initial (skeleton) state. -/
theorem C8_witness :
    (triggerSkip (triggerSkip revealingState) = triggerSkip revealingState
      ∧ (triggerSkip revealingState).phase = .active
      ∧ (triggerSkip revealingState).revealProgress = 1
      ∧ (triggerSkip revealingState).hasSeenRevealStored = true)
    ∧ triggerSkip initControllerState
        = { initControllerState with skipReveal := true } :=
  ⟨(C8_skip_idempotent revealingState).1 rfl,
   (C8_skip_idempotent initControllerState).2 (by decide)⟩

/-! ## Theorems: evolution detector -/

/-- Lookup after a JS Map.set: the new value under the written key, the old
lookup elsewhere. -/
theorem jsMapGet_jsMapSet {α : Type} (m : List (String × α)) (k : String)
    (v : α) (q : String) :
    jsMapGet (jsMapSet m k v) q = if q = k then some v else jsMapGet m q := by
  by_cases hq : q = k
  · subst hq
    rw [if_pos rfl]
    unfold jsMapSet jsMapGet
    by_cases hany : m.any (fun p => p.1 = q) = true
    · rw [if_pos hany, List.find?_map]
      have hpred : ((fun p : String × α => decide (p.1 = q)) ∘
          fun p => if p.1 = q then (q, v) else p)
          = fun p : String × α => decide (p.1 = q) := by
        funext pr
        by_cases hp : pr.1 = q <;> simp [hp]
      rw [hpred]
      rcases hfind : List.find? (fun p : String × α => decide (p.1 = q)) m with
        _ | pr
      · rw [List.find?_eq_none] at hfind
        rw [List.any_eq_true] at hany
        rcases hany with ⟨pr, hpm, hp⟩
        exact absurd hp (hfind pr hpm)
      · have hp1 := List.find?_some hfind
        have hp : pr.1 = q := of_decide_eq_true hp1
        simp [hp]
    · rw [if_neg hany, List.find?_append]
      have hnone : List.find? (fun p : String × α => decide (p.1 = q)) m
          = none := by
        rw [List.find?_eq_none]
        intro pr hpm hp
        exact hany (List.any_eq_true.mpr ⟨pr, hpm, hp⟩)
      simp [hnone]
  · rw [if_neg hq]
    unfold jsMapSet jsMapGet
    by_cases hany : m.any (fun p => p.1 = k) = true
    · rw [if_pos hany, List.find?_map]
      have hpred : ((fun p : String × α => decide (p.1 = q)) ∘
          fun p => if p.1 = k then (k, v) else p)
          = fun p : String × α => decide (p.1 = q) := by
        funext pr
        by_cases hp : pr.1 = k <;> simp [hp, hq, Ne.symm hq]
      rw [hpred]
      rcases hfind : List.find? (fun p : String × α => decide (p.1 = q)) m with
        _ | pr
      · rfl
      · have hp1 := List.find?_some hfind
        have hp : pr.1 = q := of_decide_eq_true hp1
        have heq : (if pr.1 = k then (k, v) else pr) = pr := by
          rw [if_neg]
          rw [hp]
          exact hq
        simp [heq]
    · rw [if_neg hany, List.find?_append]
      have hone : List.find? (fun p : String × α => decide (p.1 = q)) [(k, v)]
          = none := by
        rw [List.find?_eq_none]
        intro pr hpm hp
        rw [List.mem_singleton] at hpm
        subst hpm
        exact hq (Eq.symm (of_decide_eq_true hp))
      rw [hone]
      simp

/-- Lookup in the fold that builds the previous-artist index map: with
duplicate-free ids, the id of the artist at (absolute) position n + i maps to
that position. -/
theorem foldl_indexMap_lookup (l : List GalaxyArtist) :
    ∀ (n : ℕ) (m : List (String × ℕ)) (q : String),
    (l.map (fun a => a.id)).Nodup →
    jsMapGet ((List.enumFrom n l).foldl (fun m p => jsMapSet m p.2.id p.1) m) q
      = if q ∈ l.map (fun a => a.id)
        then some (n + (l.map (fun a => a.id)).indexOf q)
        else jsMapGet m q := by
  induction l with
  | nil =>
    intro n m q _
    simp [List.enumFrom]
  | cons a tl ih =>
    intro n m q hnodup
    rw [List.map_cons, List.nodup_cons] at hnodup
    rw [List.enumFrom_cons, List.foldl_cons]
    rw [ih (n + 1) (jsMapSet m a.id n) q hnodup.2]
    rw [List.map_cons]
    by_cases hq : q ∈ tl.map (fun a => a.id)
    · have hqa : q ≠ a.id := by
        intro hcontra
        exact hnodup.1 (hcontra ▸ hq)
      rw [if_pos hq, if_pos (List.mem_cons_of_mem _ hq)]
      rw [List.indexOf_cons_ne _ (Ne.symm hqa)]
      congr 1
      omega
    · by_cases hq2 : q = a.id
      · subst hq2
        rw [if_neg hq, if_pos (List.mem_cons_self _ _)]
        rw [jsMapGet_jsMapSet, if_pos rfl, List.indexOf_cons_self]
        rfl
      · rw [if_neg hq, if_neg (by simp [hq, hq2])]
        rw [jsMapGet_jsMapSet, if_neg hq2]

/-- C4 (confirmed): with duplicate-free previous ids, detectEvolution returns
the input unchanged on a null previous result; otherwise it maps each new
artist at its new index to a copy tagged exactly as the specification says
(new when absent before, rising when the rank delta is at least 5, falling
when at most -5, stable otherwise), so the output ids are exactly the new ids
and previously-present-but-absent artists do not appear. -/
theorem C4_evolution_tagging (newData previousData : GalaxyData)
    (h : (previousData.artists.map (fun a => a.id)).Nodup) :
    detectEvolution newData none = newData
    ∧ (detectEvolution newData (some previousData)).artists
        = newData.artists.enum.map (fun p =>
            { p.2 with
              evolutionStatus := some (specEvolutionTag
                (previousData.artists.map (fun a => a.id)) p.2.id p.1),
              rankChange := some (specRankDelta
                (previousData.artists.map (fun a => a.id)) p.2.id p.1) })
    ∧ (detectEvolution newData (some previousData)).artists.map (fun a => a.id)
        = newData.artists.map (fun a => a.id) := by
  have hlookup : ∀ q, jsMapGet (buildPreviousArtistMap previousData.artists) q
      = if q ∈ previousData.artists.map (fun a => a.id)
        then some ((previousData.artists.map (fun a => a.id)).indexOf q)
        else none := by
    intro q
    have := foldl_indexMap_lookup previousData.artists 0 [] q h
    rw [show List.enumFrom 0 previousData.artists = previousData.artists.enum
      from rfl] at this
    rw [show jsMapGet ([] : List (String × ℕ)) q = none from rfl] at this
    simpa [buildPreviousArtistMap] using this
  have h2 : (detectEvolution newData (some previousData)).artists
      = newData.artists.enum.map (fun p =>
          { p.2 with
            evolutionStatus := some (specEvolutionTag
              (previousData.artists.map (fun a => a.id)) p.2.id p.1),
            rankChange := some (specRankDelta
              (previousData.artists.map (fun a => a.id)) p.2.id p.1) }) := by
    show newData.artists.enum.map _ = _
    apply List.map_congr_left
    intro p _
    dsimp only
    rw [hlookup p.2.id]
    by_cases hmem : p.2.id ∈ previousData.artists.map (fun a => a.id)
    · rw [if_pos hmem]
      unfold specEvolutionTag specRankDelta
      rw [if_pos hmem, if_pos hmem]
    · rw [if_neg hmem]
      unfold specEvolutionTag specRankDelta
      rw [if_neg hmem, if_neg hmem]
  refine ⟨rfl, h2, ?_⟩
  rw [h2, List.map_map]
  rw [show ((fun a : GalaxyArtist => a.id) ∘ fun p : ℕ × GalaxyArtist =>
      ({ p.2 with
         evolutionStatus := some (specEvolutionTag
           (previousData.artists.map (fun a => a.id)) p.2.id p.1),
         rankChange := some (specRankDelta
           (previousData.artists.map (fun a => a.id)) p.2.id p.1) }))
      = (fun a : GalaxyArtist => a.id) ∘ Prod.snd from rfl]
  rw [← List.map_map, List.enum_map_snd]

/-- C4 witness: the fixture with previous ids A, B, C and new ids C, A, B, D
(everything stable but the newly appearing D, since all rank deltas are below
the threshold 5). -/
theorem C4_witness :
    (detectEvolution newGD (some prevGD)).artists
      = newGD.artists.enum.map (fun p =>
          { p.2 with
            evolutionStatus := some (specEvolutionTag
              (prevGD.artists.map (fun a => a.id)) p.2.id p.1),
            rankChange := some (specRankDelta
              (prevGD.artists.map (fun a => a.id)) p.2.id p.1) }) :=
  (C4_evolution_tagging newGD prevGD (by decide)).2.1

/-! ## Theorems: position cache -/

/-- Reading a key just written to storage returns the written entry; other
keys are unaffected (storageSet/storageGet coincide definitionally with the
generic JS-map operations). -/
theorem storageGet_storageSet {α : Type} (σ : Storage α) (k : String)
    (v : SerializedCacheEntry α) (q : String) :
    storageGet (storageSet σ k v) q = if q = k then some v else storageGet σ q :=
  jsMapGet_jsMapSet σ k v q

/-- Folding JS Map.set over entries with fresh, duplicate-free keys just
appends them. -/
theorem foldl_jsMapSet_append {α : Type} :
    ∀ (l m : List (String × α)), (l.map Prod.fst).Nodup →
    (∀ p ∈ l, m.any (fun r => r.1 = p.1) = false) →
    l.foldl (fun m p => jsMapSet m p.1 p.2) m = m ++ l := by
  intro l
  induction l with
  | nil => intro m _ _; simp
  | cons a tl ih =>
    intro m hnodup hfresh
    rw [List.map_cons, List.nodup_cons] at hnodup
    rw [List.foldl_cons]
    have hset : jsMapSet m a.1 a.2 = m ++ [a] := by
      unfold jsMapSet
      rw [if_neg]
      intro hcontra
      have := hfresh a (List.mem_cons_self _ _)
      rw [this] at hcontra
      exact Bool.false_ne_true hcontra
    rw [hset, ih (m ++ [a]) hnodup.2, List.append_assoc]
    rfl
    intro p hp
    rw [List.any_append]
    have h1 : m.any (fun r => r.1 = p.1) = false :=
      hfresh p (List.mem_cons_of_mem _ hp)
    have h2 : [a].any (fun r => r.1 = p.1) = false := by
      simp only [List.any_cons, List.any_nil, Bool.or_false]
      rw [decide_eq_false]
      intro hcontra
      exact hnodup.1 (hcontra ▸ List.mem_map_of_mem Prod.fst hp)
    rw [h1, h2]
    rfl

/-- Rebuilding a JS Map from entries with duplicate-free keys is the
identity. -/
theorem jsMapFromEntries_of_nodup {α : Type} (l : List (String × α))
    (h : (l.map Prod.fst).Nodup) : jsMapFromEntries l = l := by
  unfold jsMapFromEntries
  rw [foldl_jsMapSet_append l [] h (fun p _ => rfl)]
  rfl

/-- Unfolding of the cache validity check. -/
theorem isCacheValid_eq_true_iff {α : Type} (e : SerializedCacheEntry α)
    (c : List String) :
    isCacheValid e c = true ↔
      e.version = CACHE_VERSION
      ∧ e.artistIds.dedup.length = c.dedup.length
      ∧ ∀ x ∈ c.dedup, x ∈ e.artistIds.dedup := by
  unfold isCacheValid
  by_cases h1 : e.version ≠ CACHE_VERSION
  · rw [if_pos h1]
    simp [h1]
  · rw [if_neg h1]
    have h1a : e.version = CACHE_VERSION := not_ne_iff.mp h1
    by_cases h2 : e.artistIds.dedup.length ≠ c.dedup.length
    · rw [if_pos h2]
      simp [h2]
    · rw [if_neg h2]
      have h2a : e.artistIds.dedup.length = c.dedup.length := not_ne_iff.mp h2
      simp [h1a, h2a, List.all_eq_true]

/-- C2 (confirmed): after setCachedPositions(timeRange, ids, positions), a
getCachedPositions with the same time range and id list returns exactly the
stored positions (whatever else the storage held), and a get with any id list
that is not set-equal to ids (different size or membership) returns none on
the storage holding just that entry: either its derived key misses, or the
key collides and the exact-set validity check rejects and fails the lookup. -/
theorem C2_cache_round_trip {α : Type} (t : TimeRange) (ids idsB : List String)
    (pos : List (String × α)) (σ : Storage α) (now : ℚ)
    (hpos : (pos.map Prod.fst).Nodup)
    (hne : ¬ (∀ x, x ∈ ids ↔ x ∈ idsB)) :
    (getCachedPositions t ids (setCachedPositions t ids pos now σ)).1 = some pos
    ∧ (getCachedPositions t idsB
        (setCachedPositions t ids pos now [])).1 = none := by
  have hvalid : isCacheValid
      (⟨CACHE_VERSION, now, ids, pos⟩ : SerializedCacheEntry α) ids = true := by
    rw [isCacheValid_eq_true_iff]
    exact ⟨rfl, rfl, fun x hx => hx⟩
  constructor
  · unfold getCachedPositions setCachedPositions
    dsimp only
    rw [storageGet_storageSet, if_pos rfl]
    dsimp only
    rw [if_pos hvalid]
    exact congrArg some (jsMapFromEntries_of_nodup pos hpos)
  · have hempty : setCachedPositions t ids pos now ([] : Storage α)
        = [(getCacheKey t ids, ⟨CACHE_VERSION, now, ids, pos⟩)] := rfl
    rw [hempty]
    unfold getCachedPositions
    dsimp only
    by_cases hk : getCacheKey t idsB = getCacheKey t ids
    · have hget : storageGet
          [(getCacheKey t ids,
            (⟨CACHE_VERSION, now, ids, pos⟩ : SerializedCacheEntry α))]
          (getCacheKey t idsB)
          = some ⟨CACHE_VERSION, now, ids, pos⟩ := by
        unfold storageGet
        rw [hk]
        simp [List.find?]
      rw [hget]
      dsimp only
      have hinvalid : ¬ isCacheValid
          (⟨CACHE_VERSION, now, ids, pos⟩ : SerializedCacheEntry α) idsB
          = true := by
        intro hv
        rw [isCacheValid_eq_true_iff] at hv
        rcases hv with ⟨-, hlen, hsub⟩
        have hsubperm : idsB.dedup.Subperm ids.dedup :=
          (List.nodup_dedup idsB).subperm (fun x hx => hsub x hx)
        have hperm : idsB.dedup.Perm ids.dedup :=
          hsubperm.perm_of_length_le (le_of_eq hlen)
        refine hne (fun x => ?_)
        rw [← List.mem_dedup (l := ids), ← List.mem_dedup (l := idsB)]
        exact (hperm.mem_iff).symm
      rw [if_neg hinvalid]
    · have hget : storageGet
          [(getCacheKey t ids,
            (⟨CACHE_VERSION, now, ids, pos⟩ : SerializedCacheEntry α))]
          (getCacheKey t idsB)
          = none := by
        unfold storageGet
        have : List.find?
            (fun p : String × SerializedCacheEntry α =>
              p.1 = getCacheKey t idsB)
            [(getCacheKey t ids, ⟨CACHE_VERSION, now, ids, pos⟩)] = none := by
          rw [List.find?_eq_none]
          intro pr hpm hp
          rw [List.mem_singleton] at hpm
          subst hpm
          exact hk (Eq.symm (of_decide_eq_true hp))
        rw [this]
        rfl
      rw [hget]

/-- C2 witness: storing positions for ids a, b and reading them back, then
failing a read for the same-size different-membership id set a, c. -/
theorem C2_witness :
    (getCachedPositions TimeRange.medium_term ["a", "b"]
        (setCachedPositions TimeRange.medium_term ["a", "b"]
          [("a", (1 : ℕ)), ("b", 2)] 0 [])).1 = some [("a", 1), ("b", 2)]
    ∧ (getCachedPositions TimeRange.medium_term ["a", "c"]
        (setCachedPositions TimeRange.medium_term ["a", "b"]
          [("a", (1 : ℕ)), ("b", 2)] 0 [])).1 = none :=
  C2_cache_round_trip TimeRange.medium_term ["a", "b"] ["a", "c"]
    [("a", 1), ("b", 2)] [] 0 (by decide)
    (fun h => absurd ((h "b").mp (by decide)) (by decide))

/-! ## Theorems: connection builder -/

/-- Membership in the nested-loop index pairs. -/
theorem mem_pairIndices {n i j : ℕ} :
    (i, j) ∈ pairIndices n ↔ i < j ∧ j < n := by
  simp only [pairIndices, List.mem_flatMap, List.mem_map, List.mem_filter,
    List.mem_range]
  constructor
  · rintro ⟨i1, hi1, j1, ⟨hj1, hij⟩, heq⟩
    obtain ⟨h1, h2⟩ := Prod.mk.injEq i1 j1 i j ▸ heq
    subst h1
    subst h2
    exact ⟨of_decide_eq_true hij, hj1⟩
  · rintro ⟨hij, hj⟩
    exact ⟨i, lt_trans hij hj, j, ⟨hj, decide_eq_true hij⟩, rfl⟩

/-- A duplicate-free shared-genre count is the cardinality of the genre-set
intersection. -/
theorem sharedGenres_length_eq (a b : SpotifyArtist) (ha : a.genres.Nodup) :
    (a.genres.filter (fun g => g ∈ b.genres)).length
      = (a.genres.toFinset ∩ b.genres.toFinset).card := by
  rw [← List.toFinset_card_of_nodup (ha.filter _)]
  congr 1
  rw [List.toFinset_filter]
  ext x
  simp [List.mem_toFinset]

/-- The deduplicated concatenation counts the genre-set union. -/
theorem totalGenres_length_eq (a b : SpotifyArtist) :
    (a.genres ++ b.genres).dedup.length
      = (a.genres.toFinset ∪ b.genres.toFinset).card := by
  rw [← List.toFinset_card_of_nodup (List.nodup_dedup _)]
  rw [← List.toFinset_append]
  congr 1
  ext x
  simp [List.mem_dedup]

/-- With duplicate-free genre lists, the code's pair emission coincides with
the set-based emission of the claim. -/
theorem emitConnection_eq_spec (a b : SpotifyArtist) (ha : a.genres.Nodup) :
    emitConnection a b = specEmitConnection a b := by
  unfold emitConnection specEmitConnection
  dsimp only
  rw [sharedGenres_length_eq a b ha, totalGenres_length_eq a b]
  by_cases h1 : 0 < (a.genres.toFinset ∩ b.genres.toFinset).card
  · rw [if_pos h1]
    by_cases h2 : (0.15 : ℚ) < ((a.genres.toFinset ∩ b.genres.toFinset).card : ℚ)
        / ((a.genres.toFinset ∪ b.genres.toFinset).card : ℚ)
    · rw [if_pos h2, if_pos ⟨h1, h2⟩]
    · rw [if_neg h2, if_neg (fun hc => h2 hc.2)]
  · rw [if_neg h1, if_neg (fun hc => h1 hc.1)]

/-- Every emitted connection has strength in the half-open interval
(0.15, 1], provided the first artist's genre list is duplicate-free. -/
theorem emitConnection_strength_range (a b : SpotifyArtist)
    (ha : a.genres.Nodup) (c : ArtistConnection)
    (h : emitConnection a b = some c) :
    0.15 < c.strength ∧ c.strength ≤ 1 := by
  rw [emitConnection_eq_spec a b ha] at h
  unfold specEmitConnection at h
  dsimp only at h
  split_ifs at h with hc
  · obtain ⟨hcard, hratio⟩ := hc
    have hxc := Option.some.inj h
    rw [← hxc]
    dsimp only
    refine ⟨hratio, ?_⟩
    have hsub : (a.genres.toFinset ∩ b.genres.toFinset)
        ⊆ (a.genres.toFinset ∪ b.genres.toFinset) :=
      Finset.inter_subset_union
    have hle := Finset.card_le_card hsub
    have hpos : 0 < (a.genres.toFinset ∪ b.genres.toFinset).card :=
      lt_of_lt_of_le hcard hle
    rw [div_le_one (by exact_mod_cast hpos)]
    exact_mod_cast hle

/-- C10 (corrected), amended claim: when every artist's genre list is
duplicate-free, the connection builder emits a connection for a pair exactly
when the genre sets intersect and the set-overlap ratio exceeds 0.15, and
every emitted connection's strength lies in (0.15, 1]. -/
theorem C10_connection_characterization (artists : List SpotifyArtist)
    (h : ∀ a ∈ artists, a.genres.Nodup) :
    (createSimulationLinks artists).2
      = (pairIndices artists.length).filterMap (fun p =>
          specEmitConnection (artists.getD p.1 default)
            (artists.getD p.2 default))
    ∧ ∀ c ∈ (createSimulationLinks artists).2,
        0.15 < c.strength ∧ c.strength ≤ 1 := by
  have hnodup : ∀ p ∈ pairIndices artists.length,
      (artists.getD p.1 default).genres.Nodup := by
    rintro ⟨i, j⟩ hp
    obtain ⟨hij, hj⟩ := mem_pairIndices.mp hp
    have hi : i < artists.length := lt_trans hij hj
    rw [List.getD_eq_getElem artists default hi]
    exact h _ (List.getElem_mem hi)
  constructor
  · show (pairIndices artists.length).filterMap _ = _
    apply List.filterMap_congr
    intro p hp
    exact emitConnection_eq_spec _ _ (hnodup p hp)
  · intro c hc
    have hc2 : c ∈ (pairIndices artists.length).filterMap (fun p =>
        emitConnection (artists.getD p.1 default)
          (artists.getD p.2 default)) := hc
    obtain ⟨p, hp, hemit⟩ := List.mem_filterMap.mp hc2
    exact emitConnection_strength_range _ _ (hnodup p hp) c hemit

/-- C10 counterexample: with a duplicated genre in the first artist's list
(["rock", "rock"] against ["rock"]), the emitted connection's strength is
2, outside the claimed interval (0.15, 1]: the shared-genre count includes
duplicates while the union size deduplicates. -/
theorem C10_counterexample :
    (createSimulationLinks
      [⟨"a1", "", ["rock", "rock"], 0⟩, ⟨"a2", "", ["rock"], 0⟩]).2
      = [{ source := "a1", target := "a2", strength := 2 }]
    ∧ ¬ ((2 : ℚ) ≤ 1) := by
  constructor
  · have h1 : emitConnection ⟨"a1", "", ["rock", "rock"], 0⟩
        ⟨"a2", "", ["rock"], 0⟩ = some ⟨"a1", "a2", 2⟩ := by
      unfold emitConnection
      norm_num
    unfold createSimulationLinks
    dsimp only
    rw [show pairIndices (List.length
        [(⟨"a1", "", ["rock", "rock"], 0⟩ : SpotifyArtist),
         ⟨"a2", "", ["rock"], 0⟩]) = [(0, 1)] from by decide]
    simp [h1]
  · norm_num

/-- C10 witness: two artists with duplicate-free genre lists. -/
theorem C10_witness :
    (createSimulationLinks
      [⟨"x", "", ["rock", "indie"], 0⟩, ⟨"y", "", ["rock", "pop"], 0⟩]).2
      = (pairIndices (List.length
          [(⟨"x", "", ["rock", "indie"], 0⟩ : SpotifyArtist),
           ⟨"y", "", ["rock", "pop"], 0⟩])).filterMap (fun p =>
          specEmitConnection
            ([(⟨"x", "", ["rock", "indie"], 0⟩ : SpotifyArtist),
              ⟨"y", "", ["rock", "pop"], 0⟩].getD p.1 default)
            ([(⟨"x", "", ["rock", "indie"], 0⟩ : SpotifyArtist),
              ⟨"y", "", ["rock", "pop"], 0⟩].getD p.2 default))
    ∧ ∀ c ∈ (createSimulationLinks
        [⟨"x", "", ["rock", "indie"], 0⟩, ⟨"y", "", ["rock", "pop"], 0⟩]).2,
        0.15 < c.strength ∧ c.strength ≤ 1 :=
  C10_connection_characterization
    [⟨"x", "", ["rock", "indie"], 0⟩, ⟨"y", "", ["rock", "pop"], 0⟩]
    (by decide)

/-! ## Theorems: orbital layout, determinism (C1) -/

/-- Replacing a position by the element already there is the identity. -/
theorem set_getD_eq_self {β : Type} (l : List β) (i : ℕ) (d : β) :
    l.set i (l.getD i d) = l := by
  by_cases hi : i < l.length
  · apply List.ext_getElem (by simp)
    intro k hk1 hk2
    rw [List.getElem_set]
    split_ifs with hik
    · subst hik
      rw [List.getD_eq_getElem l d hi]
    · rfl
  · exact List.set_eq_of_length_le (le_of_not_lt hi)

/-- Equal images under f at every position follow from equal mapped lists. -/
theorem map_getD_congr {α β : Type} (f : α → β) (l₁ l₂ : List α) (d : α)
    (h : l₁.map f = l₂.map f) (k : ℕ) : f (l₁.getD k d) = f (l₂.getD k d) := by
  rw [← List.getD_map l₁ d f, ← List.getD_map l₂ d f, h]

/-- Setting an index to a node with the same read-only core keeps the mapped
cores unchanged. -/
theorem map_set_core (l : List SimulationNode) (i : ℕ) (a : SimulationNode)
    (ha : simCore a = simCore (l.getD i default)) :
    (l.set i a).map simCore = l.map simCore := by
  rw [List.map_set, ha, ← List.getD_map l default simCore,
    set_getD_eq_self]

/-- placeNode overwrites only the mutable fields. -/
theorem simCore_placeNode (g : List (String × ℕ)) (t : ℕ)
    (cfg : SimulationConfig) (r : ℕ) (n : SimulationNode) :
    simCore (placeNode g t cfg r n) = simCore n := rfl

/-- assignClusters overwrites only the cluster field. -/
theorem map_simCore_assignClusters (ns : List SimulationNode)
    (g : List (String × ℕ)) :
    (assignClusters ns g).map simCore = ns.map simCore := by
  unfold assignClusters
  rw [List.map_map]
  apply List.map_congr_left
  intro a _
  rfl

/-- assignClusters keeps every popularity. -/
theorem assignClusters_map_pop (ns : List SimulationNode)
    (g : List (String × ℕ)) :
    (assignClusters ns g).map (fun n => n.popularity)
      = ns.map (fun n => n.popularity) := by
  unfold assignClusters
  rw [List.map_map]
  apply List.map_congr_left
  intro a _
  rfl

/-- Indexing into assignClusters output. -/
theorem assignClusters_getD (ns : List SimulationNode)
    (g : List (String × ℕ)) (i : ℕ) :
    (assignClusters ns g).getD i default
      = { ns.getD i default with
          cluster := clusterOfGenres g (ns.getD i default).genres } := by
  unfold assignClusters
  exact List.getD_map ns default _

/-- The orbital position only reads the node's cluster field. -/
theorem calculateOrbitalPosition_congr (m n : SimulationNode)
    (h : m.cluster = n.cluster) (r t : ℕ) (cfg : SimulationConfig)
    (g : List (String × ℕ)) :
    calculateOrbitalPosition m r t cfg g = calculateOrbitalPosition n r t cfg g := by
  unfold calculateOrbitalPosition
  rw [h]

/-- Placement agrees on nodes with equal cores and clusters. -/
theorem placeNode_congr (g : List (String × ℕ)) (t : ℕ)
    (cfg : SimulationConfig) (r : ℕ) (m n : SimulationNode)
    (hcore : simCore m = simCore n) (hcl : m.cluster = n.cluster) :
    placeNode g t cfg r m = placeNode g t cfg r n := by
  cases m with
  | mk mid mg mp mc mx my mz mr =>
    cases n with
    | mk nid ng np nc nx ny nz nr =>
      simp only [simCore, Prod.mk.injEq] at hcore
      obtain ⟨h1, h2, h3⟩ := hcore
      simp only at hcl
      subst h1
      subst h2
      subst h3
      subst hcl
      unfold placeNode
      dsimp only
      rw [calculateOrbitalPosition_congr
        ⟨mid, mg, mp, mc, mx, my, mz, some r⟩
        ⟨mid, mg, mp, mc, nx, ny, nz, some r⟩ rfl]

/-- buildGenreMap only reads the genre lists. -/
theorem buildGenreMap_congr (ns₁ ns₂ : List SimulationNode)
    (h : ns₁.map (fun n => n.genres) = ns₂.map (fun n => n.genres)) :
    buildGenreMap ns₁ = buildGenreMap ns₂ := by
  unfold buildGenreMap
  rw [List.flatMap_def, List.flatMap_def, h]

/-- Two successive sets with core-preserving values keep the mapped cores. -/
theorem map_simCore_set_set (l : List SimulationNode) (i j : ℕ)
    (a b : SimulationNode)
    (ha : simCore a = simCore (l.getD i default))
    (hb : simCore b = simCore (l.getD j default)) :
    ((l.set i a).set j b).map simCore = l.map simCore := by
  have h1 : (l.set i a).map simCore = l.map simCore := map_set_core l i a ha
  have hb2 : simCore b = simCore ((l.set i a).getD j default) := by
    rw [hb, map_getD_congr simCore (l.set i a) l default h1 j]
  rw [map_set_core (l.set i a) j b hb2, h1]

/-- One collision step never changes the read-only cores. -/
theorem map_simCore_overlapStep (s : List SimulationNode × Bool)
    (ij : ℕ × ℕ) : (overlapStep s ij).1.map simCore = s.1.map simCore := by
  unfold overlapStep
  dsimp only
  split_ifs with h
  · exact map_simCore_set_set s.1 ij.1 ij.2 _ _ rfl rfl
  · rfl

/-- A whole collision pass never changes the read-only cores. -/
theorem map_simCore_overlapPass (ns : List SimulationNode) :
    (overlapPass ns).1.map simCore = ns.map simCore := by
  suffices h : ∀ (ps : List (ℕ × ℕ)) (s : List SimulationNode × Bool),
      ((ps.foldl overlapStep s).1).map simCore = s.1.map simCore by
    exact h (pairIndices ns.length) (ns, false)
  intro ps
  induction ps with
  | nil => intro s; rfl
  | cons p tl ih =>
    intro s
    rw [List.foldl_cons, ih (overlapStep s p), map_simCore_overlapStep]

/-- Collision resolution never changes the read-only cores. -/
theorem map_simCore_resolveOverlaps (ns : List SimulationNode) (k : ℕ) :
    (resolveOverlaps ns k).map simCore = ns.map simCore := by
  induction k generalizing ns with
  | zero => rfl
  | succ k ih =>
    show (let p := overlapPass ns;
      if p.2 then resolveOverlaps p.1 k else p.1).map simCore = _
    dsimp only
    split_ifs with h
    · rw [ih (overlapPass ns).1, map_simCore_overlapPass]
    · exact map_simCore_overlapPass ns

/-- Stable insertion produces a permutation of pushing the element in front. -/
theorem insertByPopularity_perm (x : ℕ × ℝ) (l : List (ℕ × ℝ)) :
    (insertByPopularity x l).Perm (x :: l) := by
  induction l with
  | nil => exact List.Perm.refl _
  | cons y ys ih =>
    show (if y.2 < x.2 then x :: y :: ys else y :: insertByPopularity x ys).Perm _
    split_ifs with h
    · exact List.Perm.refl _
    · exact (List.Perm.cons y ih).trans (List.Perm.swap x y ys)

/-- The insertion-sort fold permutes its input onto the accumulator. -/
theorem foldl_insertByPopularity_perm (l : List (ℕ × ℝ)) :
    ∀ acc : List (ℕ × ℝ),
    (l.foldl (fun acc x => insertByPopularity x acc) acc).Perm (l ++ acc) := by
  induction l with
  | nil => intro acc; exact List.Perm.refl _
  | cons a tl ih =>
    intro acc
    rw [List.foldl_cons]
    refine (ih (insertByPopularity a acc)).trans ?_
    refine (List.Perm.append_left tl (insertByPopularity_perm a acc)).trans ?_
    exact List.perm_middle

/-- The sorted order is a permutation of the original index range. -/
theorem sortedOrder_perm_range (pops : List ℝ) :
    (sortedOrder pops).Perm (List.range pops.length) := by
  unfold sortedOrder
  have h := foldl_insertByPopularity_perm pops.enum []
  rw [List.append_nil] at h
  have h2 := h.map Prod.fst
  rw [List.enum_map_fst] at h2
  exact h2

/-- Length of the sorted order. -/
theorem sortedOrder_length (pops : List ℝ) :
    (sortedOrder pops).length = pops.length := by
  rw [(sortedOrder_perm_range pops).length_eq, List.length_range]

/-- Every index below the length occurs in the sorted order. -/
theorem mem_sortedOrder (pops : List ℝ) (i : ℕ) (hi : i < pops.length) :
    i ∈ sortedOrder pops :=
  ((sortedOrder_perm_range pops).mem_iff).mpr (List.mem_range.mpr hi)

/-- The read-only cores (id, genres, popularity) of every node, in the
original order, survive a layout run unchanged: runSimulation only writes
cluster, rank and the position. -/
theorem map_simCore_runSimulation (ns : List SimulationNode)
    (links : List SimulationLink) (cfg : SimulationConfig) :
    (runSimulation ns links cfg).map simCore = ns.map simCore := by
  unfold runSimulation
  dsimp only
  set g := buildGenreMap ns with hg
  set clustered := assignClusters ns g with hclustered
  set perm := sortedOrder (clustered.map (fun n => n.popularity)) with hperm
  set placed := perm.enum.map (fun p =>
    placeNode g ns.length cfg p.1 (clustered.getD p.2 default)) with hplaced
  set resolved := resolveOverlaps placed 15 with hresolved
  have hpermlen : perm.length = ns.length := by
    rw [hperm, sortedOrder_length, List.length_map]
    rw [hclustered]
    unfold assignClusters
    rw [List.length_map]
  have hres : resolved.map simCore = placed.map simCore := by
    rw [hresolved]
    exact map_simCore_resolveOverlaps placed 15
  have hclcore : clustered.map simCore = ns.map simCore := by
    rw [hclustered]
    exact map_simCore_assignClusters ns g
  apply List.ext_getElem
  · simp
  intro k hk1 hk2
  have hkn : k < ns.length := by
    simpa using hk2
  have hkperm : k ∈ perm := by
    rw [hperm]
    apply mem_sortedOrder
    rw [List.length_map, hclustered]
    unfold assignClusters
    rw [List.length_map]
    exact hkn
  have hidx : perm.indexOf k < perm.length := List.indexOf_lt_length.mpr hkperm
  have hplacedlen : placed.length = perm.length := by
    rw [hplaced, List.length_map, List.enum_length]
  rw [List.getElem_map, List.getElem_map]
  rw [List.getElem_range]
  have hstep1 : simCore (resolved.getD (perm.indexOf k) default)
      = simCore (placed.getD (perm.indexOf k) default) :=
    map_getD_congr simCore resolved placed default hres _
  rw [hstep1]
  have hstep2 : placed.getD (perm.indexOf k) default
      = placeNode g ns.length cfg (perm.indexOf k) (clustered.getD k default) := by
    rw [List.getD_eq_getElem placed default (by rw [hplacedlen]; exact hidx)]
    simp only [hplaced, List.getElem_map, List.getElem_enum]
    exact congrArg
      (fun t => placeNode g ns.length cfg (perm.indexOf k)
        (clustered.getD t default))
      (List.getElem_indexOf hidx)
  rw [hstep2, simCore_placeNode]
  have hstep3 : simCore (clustered.getD k default)
      = simCore (ns.getD k default) :=
    map_getD_congr simCore clustered ns default hclcore k
  rw [hstep3, List.getD_eq_getElem ns default hkn, List.getElem_map]

/-- The layout result depends only on the read-only cores (id, genres,
popularity) of the input nodes, in order: all other fields are overwritten. -/
theorem runSimulation_congr (ns₁ ns₂ : List SimulationNode)
    (links : List SimulationLink) (cfg : SimulationConfig)
    (h : ns₁.map simCore = ns₂.map simCore) :
    runSimulation ns₁ links cfg = runSimulation ns₂ links cfg := by
  have hlen : ns₁.length = ns₂.length := by
    have h2 := congrArg List.length h
    simpa using h2
  have hgenres : ns₁.map (fun n => n.genres) = ns₂.map (fun n => n.genres) := by
    have h2 := congrArg (List.map (fun p : String × List String × ℝ => p.2.1)) h
    rw [List.map_map, List.map_map] at h2
    exact h2
  have hpop : ns₁.map (fun n => n.popularity)
      = ns₂.map (fun n => n.popularity) := by
    have h2 := congrArg (List.map (fun p : String × List String × ℝ => p.2.2)) h
    rw [List.map_map, List.map_map] at h2
    exact h2
  have hgm : buildGenreMap ns₁ = buildGenreMap ns₂ :=
    buildGenreMap_congr _ _ hgenres
  have hcoreD : ∀ k, simCore (ns₁.getD k default) = simCore (ns₂.getD k default) :=
    fun k => map_getD_congr simCore ns₁ ns₂ default h k
  unfold runSimulation
  dsimp only
  rw [hgm, hlen]
  rw [assignClusters_map_pop, assignClusters_map_pop, hpop]
  have hplacedeq : ∀ p : ℕ × ℕ,
      placeNode (buildGenreMap ns₂) ns₂.length cfg p.1
        ((assignClusters ns₁ (buildGenreMap ns₂)).getD p.2 default)
      = placeNode (buildGenreMap ns₂) ns₂.length cfg p.1
        ((assignClusters ns₂ (buildGenreMap ns₂)).getD p.2 default) := by
    intro p
    apply placeNode_congr
    · have hmac : (assignClusters ns₁ (buildGenreMap ns₂)).map simCore
          = (assignClusters ns₂ (buildGenreMap ns₂)).map simCore := by
        rw [map_simCore_assignClusters, map_simCore_assignClusters, h]
      exact map_getD_congr simCore _ _ default hmac p.2
    · rw [assignClusters_getD, assignClusters_getD]
      dsimp only
      have hgen := congrArg (fun q : String × List String × ℝ => q.2.1)
        (hcoreD p.2)
      dsimp only [simCore] at hgen
      rw [hgen]
  rw [List.map_congr_left (fun p _ => hplacedeq p)]

/-- C1 (confirmed): the layout is deterministic: identical inputs give
bit-for-bit identical outputs, and a repeated call on the same node objects
(which the first call mutated in place, as the JS code does) reproduces
exactly the same positions, because the run only reads the id, genres and
popularity fields and overwrites everything it wrote before. -/
theorem C1_runSimulation_deterministic (nodes : List SimulationNode)
    (links links2 : List SimulationLink) (config : SimulationConfig) :
    runSimulation nodes links config = runSimulation nodes links config
    ∧ runSimulation (runSimulation nodes links config) links2 config
        = runSimulation nodes links config :=
  ⟨rfl, runSimulation_congr _ _ _ _ (map_simCore_runSimulation nodes links config)⟩

/-! ## Theorems: orbital layout, single entity (C9) -/

set_option maxHeartbeats 2000000 in
/-- Full evaluation of a one-entity layout: the single node has rank 0,
lands on the vertical axis at height innerRadius * 0.6 (the pole of its
orbit sphere, compressed by 0.6), and collision resolution is a no-op. -/
theorem runSimulation_singleton (n : SimulationNode)
    (links : List SimulationLink) (cfg : SimulationConfig)
    (h3d : cfg.use3D = true) :
    runSimulation [n] links cfg
      = [{ n with
           cluster := clusterOfGenres (buildGenreMap [n]) n.genres
           x := some 0
           y := some (cfg.innerRadius * 0.6)
           z := some 0
           rank := some 0 }] := by
  have hpos : calculateOrbitalPosition
      { n with
        cluster := clusterOfGenres (buildGenreMap [n]) n.genres
        rank := some 0 }
      0 1 cfg (buildGenreMap [n]) = (0, cfg.innerRadius * 0.6, 0) := by
    unfold calculateOrbitalPosition
    dsimp only
    rw [Prod.mk.injEq, Prod.mk.injEq]
    refine ⟨?_, ?_, ?_⟩
    · norm_num [Real.arccos_one, Real.sin_zero]
    · simp only [h3d, if_true]
      norm_num [Real.arccos_one, Real.cos_zero]
    · norm_num [Real.arccos_one, Real.sin_zero]
  show [placeNode (buildGenreMap [n]) 1 cfg 0
      { n with cluster := clusterOfGenres (buildGenreMap [n]) n.genres }] = _
  unfold placeNode
  dsimp only
  rw [hpos]

/-- C9 (corrected), amended claim: a one-entity layout places the entity at
the pole of its orbit at distance innerRadius * 0.6 from the origin (the
vertical compression 0.6 applies, so the distance is not innerRadius), and
the rank normalization divides by max(totalCount - 1, 1) = 1, so no division
by zero occurs. -/
theorem C9_singleton_placement (n : SimulationNode)
    (links : List SimulationLink) (cfg : SimulationConfig)
    (h3d : cfg.use3D = true) (hr : 0 ≤ cfg.innerRadius) :
    runSimulation [n] links cfg
      = [{ n with
           cluster := clusterOfGenres (buildGenreMap [n]) n.genres
           x := some 0
           y := some (cfg.innerRadius * 0.6)
           z := some 0
           rank := some 0 }]
    ∧ distFromOrigin ((runSimulation [n] links cfg).getD 0 default)
        = cfg.innerRadius * 0.6
    ∧ max (((1 : ℕ) : ℝ) - 1) 1 = 1 := by
  have heval := runSimulation_singleton n links cfg h3d
  refine ⟨heval, ?_, by norm_num⟩
  rw [heval]
  unfold distFromOrigin
  simp only [List.getD_cons_zero, Option.getD_some]
  have hsq : (0 : ℝ) * 0 + (cfg.innerRadius * 0.6) * (cfg.innerRadius * 0.6)
      + 0 * 0 = (cfg.innerRadius * 0.6) ^ 2 := by ring
  rw [hsq, Real.sqrt_sq (by positivity)]

/-- C9 counterexample: with the default config, the single entity sits at
distance 4.8 = 8 * 0.6 from the origin, not at innerRadius = 8 as the claim
states. -/
theorem C9_counterexample :
    distFromOrigin ((runSimulation
        [⟨"solo", [], 50, 0, none, none, none, none⟩] [] DEFAULT_CONFIG).getD 0
        default) = 4.8
    ∧ (4.8 : ℝ) ≠ DEFAULT_CONFIG.innerRadius := by
  constructor
  · have heval := runSimulation_singleton
      ⟨"solo", [], 50, 0, none, none, none, none⟩ [] DEFAULT_CONFIG rfl
    rw [heval]
    unfold distFromOrigin DEFAULT_CONFIG
    simp only [List.getD_cons_zero, Option.getD_some]
    have hsq : ((8 : ℝ) * 0.6) * ((8 : ℝ) * 0.6) = (4.8 : ℝ) ^ 2 := by norm_num
    rw [show (0 : ℝ) * 0 + ((8 : ℝ) * 0.6) * ((8 : ℝ) * 0.6) + 0 * 0
        = ((8 : ℝ) * 0.6) * ((8 : ℝ) * 0.6) by ring, hsq,
      Real.sqrt_sq (by norm_num)]
  · unfold DEFAULT_CONFIG
    norm_num

/-- C9 witness: the amended claim evaluated on a concrete single artist with
the default config (distance 8 * 0.6). -/
theorem C9_witness :
    runSimulation [⟨"solo", [], 50, 0, none, none, none, none⟩] [] DEFAULT_CONFIG
      = [{ (⟨"solo", [], 50, 0, none, none, none, none⟩ : SimulationNode) with
           cluster := clusterOfGenres
             (buildGenreMap [⟨"solo", [], 50, 0, none, none, none, none⟩])
             (⟨"solo", [], 50, 0, none, none, none, none⟩ : SimulationNode).genres
           x := some 0
           y := some (DEFAULT_CONFIG.innerRadius * 0.6)
           z := some 0
           rank := some 0 }]
    ∧ distFromOrigin ((runSimulation
        [⟨"solo", [], 50, 0, none, none, none, none⟩] [] DEFAULT_CONFIG).getD 0
        default) = DEFAULT_CONFIG.innerRadius * 0.6
    ∧ max (((1 : ℕ) : ℝ) - 1) 1 = 1 :=
  C9_singleton_placement ⟨"solo", [], 50, 0, none, none, none, none⟩ []
    DEFAULT_CONFIG rfl (by unfold DEFAULT_CONFIG; norm_num)

/-! ## Theorems: collision resolution post-condition (C3) -/

/-- A collision step on a non-overlapping (or degenerate) pair is the
identity. -/
theorem overlapStep_eq_of_not (s : List SimulationNode × Bool) (ij : ℕ × ℕ)
    (h : ¬ (nodeDist (s.1.getD ij.1 default) (s.1.getD ij.2 default)
        < (getNodeSize (s.1.getD ij.1 default)
            + getNodeSize (s.1.getD ij.2 default)) * minSpacing
      ∧ 0.001 < nodeDist (s.1.getD ij.1 default) (s.1.getD ij.2 default))) :
    overlapStep s ij = s := by
  unfold overlapStep
  dsimp only
  rw [if_neg]
  exact fun hc => h hc

/-- A collision step on an overlapping pair raises the hasOverlap flag. -/
theorem overlapStep_flag_of (s : List SimulationNode × Bool) (ij : ℕ × ℕ)
    (h : nodeDist (s.1.getD ij.1 default) (s.1.getD ij.2 default)
        < (getNodeSize (s.1.getD ij.1 default)
            + getNodeSize (s.1.getD ij.2 default)) * minSpacing
      ∧ 0.001 < nodeDist (s.1.getD ij.1 default) (s.1.getD ij.2 default)) :
    (overlapStep s ij).2 = true := by
  unfold overlapStep
  dsimp only
  split_ifs with hc
  · rfl
  · exact absurd h hc

/-- Once the hasOverlap flag is raised it stays raised for the rest of the
pass. -/
theorem foldl_overlapStep_flag_true (ps : List (ℕ × ℕ)) :
    ∀ ns : List SimulationNode,
    ((ps.foldl overlapStep (ns, true)).2) = true := by
  induction ps with
  | nil => intro ns; rfl
  | cons p tl ih =>
    intro ns
    rw [List.foldl_cons]
    show (tl.foldl overlapStep (overlapStep (ns, true) p)).2 = true
    unfold overlapStep
    dsimp only
    split_ifs with h
    · exact ih _
    · exact ih ns

/-- If a full pass reports no overlap then it moved nothing and no pair was
both closer than the minimum separation and farther than the 0.001
degeneracy guard. -/
theorem foldl_overlapStep_flag_false (ps : List (ℕ × ℕ)) :
    ∀ ns : List SimulationNode,
    (ps.foldl overlapStep (ns, false)).2 = false →
    ps.foldl overlapStep (ns, false) = (ns, false)
    ∧ ∀ ij ∈ ps,
      ¬ (nodeDist (ns.getD ij.1 default) (ns.getD ij.2 default)
          < (getNodeSize (ns.getD ij.1 default)
              + getNodeSize (ns.getD ij.2 default)) * minSpacing
        ∧ 0.001 < nodeDist (ns.getD ij.1 default) (ns.getD ij.2 default)) := by
  induction ps with
  | nil =>
    intro ns _
    exact ⟨rfl, by simp⟩
  | cons p tl ih =>
    intro ns h
    by_cases hc : nodeDist (ns.getD p.1 default) (ns.getD p.2 default)
        < (getNodeSize (ns.getD p.1 default)
            + getNodeSize (ns.getD p.2 default)) * minSpacing
      ∧ 0.001 < nodeDist (ns.getD p.1 default) (ns.getD p.2 default)
    · exfalso
      rw [List.foldl_cons] at h
      have h1 : (overlapStep (ns, false) p).2 = true :=
        overlapStep_flag_of (ns, false) p hc
      have h2 : overlapStep (ns, false) p
          = ((overlapStep (ns, false) p).1, true) := by
        rw [← h1]
      rw [h2] at h
      rw [foldl_overlapStep_flag_true tl (overlapStep (ns, false) p).1] at h
      exact absurd h (by simp)
    · rw [List.foldl_cons, overlapStep_eq_of_not (ns, false) p hc] at h ⊢
      obtain ⟨h1, h2⟩ := ih ns h
      refine ⟨h1, ?_⟩
      intro ij hij
      rcases List.mem_cons.mp hij with h3 | h3
      · subst h3
        exact hc
      · exact h2 ij h3

/-- C3 (corrected), amended claim: whenever the collision-resolution state
reached by the layout admits a full pass that detects no overlap (in
particular whenever the loop exited early), every pair of placed entities is
either separated by at least (sizeA + sizeB) * 1.2 or within the 0.001
coincidence guard that the code never separates. -/
theorem C3_separation_of_clean_pass (nodes : List SimulationNode)
    (links : List SimulationLink) (cfg : SimulationConfig)
    (h : (overlapPass (runSimulation nodes links cfg)).2 = false) :
    ∀ i j : ℕ, i < j → j < (runSimulation nodes links cfg).length →
      (getNodeSize ((runSimulation nodes links cfg).getD i default)
          + getNodeSize ((runSimulation nodes links cfg).getD j default))
          * minSpacing
        ≤ nodeDist ((runSimulation nodes links cfg).getD i default)
            ((runSimulation nodes links cfg).getD j default)
      ∨ nodeDist ((runSimulation nodes links cfg).getD i default)
          ((runSimulation nodes links cfg).getD j default) ≤ 0.001 := by
  intro i j hij hj
  have h2 := (foldl_overlapStep_flag_false
    (pairIndices (runSimulation nodes links cfg).length)
    (runSimulation nodes links cfg) h).2 (i, j)
    (mem_pairIndices.mpr ⟨hij, hj⟩)
  rcases not_and_or.mp h2 with h3 | h3
  · exact Or.inl (not_lt.mp h3)
  · exact Or.inr (not_lt.mp h3)

/-- One resolution iteration after a clean pass returns the pass result. -/
theorem resolveOverlaps_of_pass_false (ns : List SimulationNode) (k : ℕ)
    (h : (overlapPass ns).2 = false) :
    resolveOverlaps ns (k + 1) = (overlapPass ns).1 := by
  show (if (overlapPass ns).2 then resolveOverlaps (overlapPass ns).1 k
    else (overlapPass ns).1) = _
  rw [h]
  rfl

/-- A two-node pass with a non-overlapping (or coincident) pair is clean. -/
theorem overlapPass_two (P0 P1 : SimulationNode)
    (hcond : ¬ (nodeDist P0 P1 < (getNodeSize P0 + getNodeSize P1) * minSpacing
      ∧ 0.001 < nodeDist P0 P1)) :
    overlapPass [P0, P1] = ([P0, P1], false) := by
  unfold overlapPass
  rw [show ([P0, P1] : List SimulationNode).length = 2 from rfl]
  rw [show pairIndices 2 = [(0, 1)] from by decide]
  rw [List.foldl_cons, List.foldl_nil]
  exact overlapStep_eq_of_not ([P0, P1], false) (0, 1) hcond

set_option maxHeartbeats 2000000 in
/-- Full evaluation of a two-entity layout with no genres and strictly
ordered popularities: the first entity takes rank 0 at the top pole of the
inner orbit, the second rank 1 at the bottom pole of the outer orbit, and
collision resolution leaves both in place when the vertical gap
0.6 * (innerRadius + outerRadius) is outside the push window. -/
theorem runSimulation_two (a b : SimulationNode) (links : List SimulationLink)
    (cfg : SimulationConfig) (ha : a.genres = []) (hb : b.genres = [])
    (hab : b.popularity < a.popularity) (h3d : cfg.use3D = true)
    (hi : 0 ≤ cfg.innerRadius) (ho : 0 ≤ cfg.outerRadius)
    (hnp : ¬ (0.6 * (cfg.innerRadius + cfg.outerRadius) < 1.44
      ∧ 0.001 < 0.6 * (cfg.innerRadius + cfg.outerRadius))) :
    runSimulation [a, b] links cfg
      = [{ a with
           cluster := 0
           x := some 0
           y := some (cfg.innerRadius * 0.6)
           z := some 0
           rank := some 0 },
         { b with
           cluster := 0
           x := some 0
           y := some (-(cfg.outerRadius * 0.6))
           z := some 0
           rank := some 1 }] := by
  have hca : clusterOfGenres [] a.genres = 0 := by
    rw [ha]
    rfl
  have hcb : clusterOfGenres [] b.genres = 0 := by
    rw [hb]
    rfl
  have hgm : buildGenreMap [a, b] = [] := by
    unfold buildGenreMap countGenres sortByCountDesc
    rw [show ([a, b] : List SimulationNode).flatMap (fun n => n.genres)
      = a.genres ++ (b.genres ++ []) from rfl]
    rw [ha, hb]
    rfl
  have hclust : assignClusters [a, b] ([] : List (String × ℕ))
      = [{ a with cluster := 0 }, { b with cluster := 0 }] := by
    unfold assignClusters
    rw [List.map_cons, List.map_cons, List.map_nil]
    rw [hca, hcb]
  have hsorted : sortedOrder [a.popularity, b.popularity] = [0, 1] := by
    unfold sortedOrder
    rw [show ([a.popularity, b.popularity] : List ℝ).enum
      = [(0, a.popularity), (1, b.popularity)] from rfl]
    rw [List.foldl_cons, List.foldl_cons, List.foldl_nil]
    rw [show insertByPopularity (0, a.popularity) [] = [(0, a.popularity)]
      from rfl]
    unfold insertByPopularity
    rw [if_neg (not_lt.mpr (le_of_lt hab))]
    rfl
  have hpos0 : calculateOrbitalPosition
      { a with cluster := 0, rank := some 0 } 0 2 cfg []
      = (0, cfg.innerRadius * 0.6, 0) := by
    unfold calculateOrbitalPosition
    dsimp only
    rw [Prod.mk.injEq, Prod.mk.injEq]
    refine ⟨?_, ?_, ?_⟩
    · norm_num [Real.arccos_one, Real.sin_zero]
    · simp only [h3d, if_true]
      norm_num [Real.arccos_one, Real.cos_zero]
    · norm_num [Real.arccos_one, Real.sin_zero]
  have hpos1 : calculateOrbitalPosition
      { b with cluster := 0, rank := some 1 } 1 2 cfg []
      = (0, -(cfg.outerRadius * 0.6), 0) := by
    unfold calculateOrbitalPosition
    dsimp only
    rw [Prod.mk.injEq, Prod.mk.injEq]
    refine ⟨?_, ?_, ?_⟩
    · norm_num [Real.arccos_neg_one, Real.sin_pi]
    · simp only [h3d, if_true]
      norm_num [Real.arccos_neg_one, Real.cos_pi]
    · norm_num [Real.arccos_neg_one, Real.sin_pi]
  have hdist : nodeDist
      { a with
        cluster := 0
        x := some 0
        y := some (cfg.innerRadius * 0.6)
        z := some 0
        rank := some 0 }
      { b with
        cluster := 0
        x := some 0
        y := some (-(cfg.outerRadius * 0.6))
        z := some 0
        rank := some 1 }
      = 0.6 * (cfg.innerRadius + cfg.outerRadius) := by
    unfold nodeDist
    dsimp only [Option.getD_some]
    rw [show (0 : ℝ) - 0 = 0 from by ring]
    rw [show -(cfg.outerRadius * 0.6) - cfg.innerRadius * 0.6
      = -(0.6 * (cfg.innerRadius + cfg.outerRadius)) from by ring]
    rw [show (0 : ℝ) * 0 + -(0.6 * (cfg.innerRadius + cfg.outerRadius))
          * -(0.6 * (cfg.innerRadius + cfg.outerRadius)) + 0 * 0
      = (0.6 * (cfg.innerRadius + cfg.outerRadius)) ^ 2 from by ring]
    exact Real.sqrt_sq
      (mul_nonneg (by norm_num) (add_nonneg hi ho))
  have hcond : ¬ (nodeDist
      { a with
        cluster := 0
        x := some 0
        y := some (cfg.innerRadius * 0.6)
        z := some 0
        rank := some 0 }
      { b with
        cluster := 0
        x := some 0
        y := some (-(cfg.outerRadius * 0.6))
        z := some 0
        rank := some 1 }
      < (getNodeSize { a with
            cluster := 0
            x := some 0
            y := some (cfg.innerRadius * 0.6)
            z := some 0
            rank := some 0 }
          + getNodeSize { b with
            cluster := 0
            x := some 0
            y := some (-(cfg.outerRadius * 0.6))
            z := some 0
            rank := some 1 }) * minSpacing
      ∧ 0.001 < nodeDist
          { a with
            cluster := 0
            x := some 0
            y := some (cfg.innerRadius * 0.6)
            z := some 0
            rank := some 0 }
          { b with
            cluster := 0
            x := some 0
            y := some (-(cfg.outerRadius * 0.6))
            z := some 0
            rank := some 1 }) := by
    intro hc
    refine hnp ⟨?_, ?_⟩
    · have h1 := hc.1
      rw [hdist] at h1
      unfold getNodeSize minSpacing at h1
      calc 0.6 * (cfg.innerRadius + cfg.outerRadius)
          < (0.6 + 0.6) * 1.2 := h1
        _ = 1.44 := by norm_num
    · have h1 := hc.2
      rw [hdist] at h1
      exact h1
  have hpass := overlapPass_two _ _ hcond
  have hsorted2 : sortedOrder (List.map (fun n : SimulationNode => n.popularity)
      [{ a with cluster := 0 }, { b with cluster := 0 }]) = [0, 1] := by
    rw [show List.map (fun n : SimulationNode => n.popularity)
        [{ a with cluster := 0 }, { b with cluster := 0 }]
      = [a.popularity, b.popularity] from rfl]
    exact hsorted
  unfold runSimulation
  dsimp only
  rw [hgm, hclust]
  rw [hsorted2]
  rw [show ([a, b] : List SimulationNode).length = 2 from rfl]
  have hplaced : ([0, 1] : List ℕ).enum.map (fun p =>
      placeNode [] 2 cfg p.1
        ([{ a with cluster := 0 }, { b with cluster := 0 }].getD p.2 default))
      = [{ a with
            cluster := 0
            x := some 0
            y := some (cfg.innerRadius * 0.6)
            z := some 0
            rank := some 0 },
         { b with
            cluster := 0
            x := some 0
            y := some (-(cfg.outerRadius * 0.6))
            z := some 0
            rank := some 1 }] := by
    show [placeNode [] 2 cfg 0 { a with cluster := 0 },
        placeNode [] 2 cfg 1 { b with cluster := 0 }] = _
    unfold placeNode
    dsimp only
    rw [hpos0, hpos1]
  rw [hplaced]
  have hresolved := (resolveOverlaps_of_pass_false _ 14 (by rw [hpass])).trans
    (by rw [hpass])
  rw [hresolved]
  rfl

/-- C3 counterexample: with both orbit radii 0, the two entities are placed
exactly on top of each other; the 0.001 guard then skips the pair in every
collision pass, so after the full layout their distance 0 stays below
(sizeA + sizeB) * 1.2 - 0.01, contradicting the claimed post-condition. -/
theorem C3_counterexample :
    nodeDist
        ((runSimulation [⟨"a", [], 90, 0, none, none, none, none⟩,
            ⟨"b", [], 50, 0, none, none, none, none⟩] []
            ⟨0, 0, 0, 5, 6, true⟩).getD 0 default)
        ((runSimulation [⟨"a", [], 90, 0, none, none, none, none⟩,
            ⟨"b", [], 50, 0, none, none, none, none⟩] []
            ⟨0, 0, 0, 5, 6, true⟩).getD 1 default)
      < (getNodeSize ((runSimulation [⟨"a", [], 90, 0, none, none, none, none⟩,
            ⟨"b", [], 50, 0, none, none, none, none⟩] []
            ⟨0, 0, 0, 5, 6, true⟩).getD 0 default)
          + getNodeSize ((runSimulation
            [⟨"a", [], 90, 0, none, none, none, none⟩,
            ⟨"b", [], 50, 0, none, none, none, none⟩] []
            ⟨0, 0, 0, 5, 6, true⟩).getD 1 default)) * minSpacing
        - 0.01 := by
  have heval := runSimulation_two
    ⟨"a", [], 90, 0, none, none, none, none⟩
    ⟨"b", [], 50, 0, none, none, none, none⟩
    [] ⟨0, 0, 0, 5, 6, true⟩ rfl rfl (by norm_num) rfl (by norm_num)
    (by norm_num) (by norm_num)
  rw [heval]
  unfold nodeDist getNodeSize minSpacing
  simp only [List.getD_cons_zero, List.getD_cons_succ, Option.getD_some]
  norm_num [Real.sqrt_zero]

/-- C3 witness: two concrete artists with the default config end up 25.8
apart, a state the next collision pass certifies as overlap-free, so the
amended separation conclusion applies to the pair. -/
theorem C3_witness :
    (getNodeSize ((runSimulation [⟨"a", [], 90, 0, none, none, none, none⟩,
          ⟨"b", [], 50, 0, none, none, none, none⟩] []
          DEFAULT_CONFIG).getD 0 default)
        + getNodeSize ((runSimulation
          [⟨"a", [], 90, 0, none, none, none, none⟩,
          ⟨"b", [], 50, 0, none, none, none, none⟩] []
          DEFAULT_CONFIG).getD 1 default)) * minSpacing
      ≤ nodeDist ((runSimulation [⟨"a", [], 90, 0, none, none, none, none⟩,
          ⟨"b", [], 50, 0, none, none, none, none⟩] []
          DEFAULT_CONFIG).getD 0 default)
        ((runSimulation [⟨"a", [], 90, 0, none, none, none, none⟩,
          ⟨"b", [], 50, 0, none, none, none, none⟩] []
          DEFAULT_CONFIG).getD 1 default)
    ∨ nodeDist ((runSimulation [⟨"a", [], 90, 0, none, none, none, none⟩,
          ⟨"b", [], 50, 0, none, none, none, none⟩] []
          DEFAULT_CONFIG).getD 0 default)
        ((runSimulation [⟨"a", [], 90, 0, none, none, none, none⟩,
          ⟨"b", [], 50, 0, none, none, none, none⟩] []
          DEFAULT_CONFIG).getD 1 default) ≤ 0.001 := by
  have heval := runSimulation_two
    ⟨"a", [], 90, 0, none, none, none, none⟩
    ⟨"b", [], 50, 0, none, none, none, none⟩
    [] DEFAULT_CONFIG rfl rfl (by norm_num) rfl
    (by unfold DEFAULT_CONFIG; norm_num) (by unfold DEFAULT_CONFIG; norm_num)
    (by unfold DEFAULT_CONFIG; norm_num)
  have hdistd : nodeDist
      { (⟨"a", [], 90, 0, none, none, none, none⟩ : SimulationNode) with
        cluster := 0
        x := some 0
        y := some (DEFAULT_CONFIG.innerRadius * 0.6)
        z := some 0
        rank := some 0 }
      { (⟨"b", [], 50, 0, none, none, none, none⟩ : SimulationNode) with
        cluster := 0
        x := some 0
        y := some (-(DEFAULT_CONFIG.outerRadius * 0.6))
        z := some 0
        rank := some 1 } = 25.8 := by
    unfold nodeDist DEFAULT_CONFIG
    simp only [Option.getD_some]
    rw [show ((0 : ℝ) - 0) * (0 - 0)
        + (-((35 : ℝ) * 0.6) - (8 : ℝ) * 0.6) * (-((35 : ℝ) * 0.6) - (8 : ℝ) * 0.6)
        + ((0 : ℝ) - 0) * (0 - 0) = (25.8 : ℝ) ^ 2 from by norm_num]
    exact Real.sqrt_sq (by norm_num)
  have hclean : (overlapPass (runSimulation
      [⟨"a", [], 90, 0, none, none, none, none⟩,
      ⟨"b", [], 50, 0, none, none, none, none⟩] [] DEFAULT_CONFIG)).2
      = false := by
    rw [heval, overlapPass_two _ _ ?hcond]
    case hcond =>
      intro hc
      have h1 := hc.1
      rw [hdistd] at h1
      unfold getNodeSize minSpacing at h1
      norm_num at h1
  exact C3_separation_of_clean_pass
    [⟨"a", [], 90, 0, none, none, none, none⟩,
     ⟨"b", [], 50, 0, none, none, none, none⟩] [] DEFAULT_CONFIG hclean 0 1
    (by norm_num) (by rw [heval]; norm_num)

end Auranova
